import Mathlib

/-!
Verification development for the recurring-events engine of the `medicine`
repository (Cloudflare worker, routes in `src/routes/events.js`, SQL schema in
the test setup file, recurrence engine contracts in the design document).

Dates and times: ISO date strings (`YYYY-MM-DD`) are totally ordered by their
lexicographic string order, which coincides with chronological order; the
embedding represents a calendar date by its day number (a `Nat`), so that
`<`/`≤` on `Nat` mirrors the SQL comparisons `instance_date >= ?` on ISO
strings, and day-difference arithmetic is plain subtraction.  Times of day and
venue identifiers are carried opaquely.

The database tables `Recurring_Events`, `Event_Instances` and
`Event_Exceptions` are embedded as lists of rows inside a `DBState`, together
with the AUTOINCREMENT counter of `Event_Instances`; the route handlers become
pure functions `DBState → Except ApiErr DBState`, where an `.error` result
means the request was rejected with no state produced (the stored state is
unchanged by construction, matching a rolled-back or never-started
transaction).
-/

set_option maxRecDepth 20000

/-- Frequency of a recurrence rule.  Modelled from the spec: the rule grammar
in the design document admits DAILY/WEEKLY/MONTHLY/YEARLY; the rule parser and
the instance generator are not under the repository's source tree (only their
call sites in `src/routes/events.js` are), and every property checked below
exercises only the DAILY and WEEKLY frequencies, whose occurrence stepping is
a fixed number of days (`interval`, resp. `7 * interval`).  MONTHLY/YEARLY
stepping depends on calendar month lengths, which the day-number abstraction
does not carry, so those frequencies (and the BYDAY weekday refinement) are
left out of the model. -/
inductive Freq where
  | daily
  | weekly
deriving DecidableEq

/-- A parsed recurrence rule.  Field names follow the properties the route
code reads off the parsed object: `recurrenceRule.frequency`,
`recurrenceRule.interval`, `recurrenceRule.count`,
`recurrenceRule.days_of_week`. -/
structure RRule where
  frequency : Freq
  interval : Nat
  count : Option Nat
  untilRaw : Option String
  days_of_week : Option String
deriving DecidableEq

/-- Split a character list at every occurrence of the separator `c`.
`splitOnCh ';' "a;b".toList = ["a".toList, "b".toList]`. -/
def splitOnCh (c : Char) : List Char → List (List Char)
  | [] => [[]]
  | x :: xs =>
    let r := splitOnCh c xs
    if x = c then [] :: r
    else
      match r with
      | [] => [[x]]
      | h :: t => (x :: h) :: t

/-- Split a `key=value` segment; fails unless there is exactly one `=`. -/
def splitKV (s : List Char) : Option (List Char × List Char) :=
  match splitOnCh '=' s with
  | [k, v] => some (k, v)
  | _ => none

/-- Value of a decimal digit character. -/
def digitVal (ch : Char) : Option Nat :=
  if '0' ≤ ch ∧ ch ≤ '9' then some (ch.toNat - 48) else none

def natFromDigitsAux : List Char → Nat → Option Nat
  | [], acc => some acc
  | ch :: rest, acc =>
    match digitVal ch with
    | some d => natFromDigitsAux rest (acc * 10 + d)
    | none => none

/-- Decimal number from a non-empty digit string. -/
def natFromDigits (ds : List Char) : Option Nat :=
  match ds with
  | [] => none
  | _ => natFromDigitsAux ds 0

/-- Positive decimal number (INTERVAL and COUNT must be positive integers). -/
def parsePosNat (s : List Char) : Option Nat :=
  match natFromDigits s with
  | some n => if 0 < n then some n else none
  | none => none

/-- First value bound to key `k` in the parsed `key=value` pair list. -/
def lookupKey (ps : List (List Char × List Char)) (k : List Char) : Option (List Char) :=
  (ps.find? (fun p => p.1 == k)).map (fun p => p.2)

def parseFreq (v : List Char) : Option Freq :=
  if v == "DAILY".toList then some Freq.daily
  else if v == "WEEKLY".toList then some Freq.weekly
  else none

def weekdayTokens : List (List Char) :=
  (["MO", "TU", "WE", "TH", "FR", "SA", "SU"]).map String.toList

/-- BYDAY value: comma-separated weekday abbreviations, all of which must be
recognized. -/
def parseByday (v : List Char) : Option String :=
  if (splitOnCh ',' v).all (fun p => weekdayTokens.contains p) then
    some (String.mk v)
  else none

def finishRule (pairs : List (List Char × List Char)) (freq : Freq)
    (interval : Nat) (count : Option Nat) (untilRaw : Option String) : Option RRule :=
  match lookupKey pairs "BYDAY".toList with
  | none => some ⟨freq, interval, count, untilRaw, none⟩
  | some bv =>
    match parseByday bv with
    | none => none
    | some s => some ⟨freq, interval, count, untilRaw, some s⟩

/-- Modelled from the spec: the server-side rule parser `parseRRule` is not
under the repository's source tree (only its call sites in
`src/routes/events.js` are).  Per the design document it accepts a
semicolon-delimited `key=value` grammar with a required `FREQ`, an optional
positive `INTERVAL` defaulting to 1, mutually exclusive positive `COUNT` /
`UNTIL` bounds, and an optional `BYDAY` list of recognized weekday
abbreviations; anything else fails with `InvalidRule` (the route answers 400).
Only the DAILY/WEEKLY frequencies are modelled, see `Freq`. -/
def parseRRule (ruleText : String) : Option RRule :=
  match (splitOnCh ';' ruleText.toList).mapM splitKV with
  | none => none
  | some pairs =>
    match lookupKey pairs "FREQ".toList with
    | none => none
    | some fv =>
      match parseFreq fv with
      | none => none
      | some freq =>
        match (match lookupKey pairs "INTERVAL".toList with
               | none => some 1
               | some v => parsePosNat v) with
        | none => none
        | some interval =>
          match lookupKey pairs "COUNT".toList, lookupKey pairs "UNTIL".toList with
          | some _, some _ => none
          | some cv, none =>
            match parsePosNat cv with
            | none => none
            | some c => finishRule pairs freq interval (some c) none
          | none, some uv => finishRule pairs freq interval none (some (String.mk uv))
          | none, none => finishRule pairs freq interval none none

/-- A row of `Recurring_Events` (test-setup schema): the template of a
recurring series.  `location` carries the venue id the route binds from
`data.venueId`. -/
structure Template where
  id : Nat
  title : String
  description : Option String
  start_date : Nat
  end_date : Nat
  frequency : Option Freq
  interval : Option Nat
  days_of_week : Option String
  start_time : String
  end_time : Option String
  location : Nat
deriving DecidableEq

instance : Inhabited Template :=
  ⟨⟨0, "", none, 0, 0, none, none, none, "", none, 0⟩⟩

/-- The data columns of an `Event_Instances` row (everything except the
AUTOINCREMENT `id`). -/
structure InstanceData where
  recurring_event_id : Nat
  instance_date : Nat
  start_time : String
  end_time : Option String
  title : String
  description : Option String
  location : Nat
  is_cancelled : Bool
deriving DecidableEq

/-- A stored `Event_Instances` row: data columns plus the AUTOINCREMENT id. -/
structure InstanceRow extends InstanceData where
  id : Nat
deriving DecidableEq

/-- An `Event_Exceptions` row as the route writes it:
`(recurring_event_id, instance_date, exception_type)`. -/
structure ExceptionRow where
  recurring_event_id : Nat
  instance_date : Nat
  exception_type : String
deriving DecidableEq

/-- The stored state: the three tables plus the AUTOINCREMENT counter of
`Event_Instances` (SQLite AUTOINCREMENT never reuses an id). -/
structure DBState where
  templates : List Template
  instances : List InstanceRow
  exceptions : List ExceptionRow
  nextInstanceId : Nat
deriving DecidableEq

/-- Errors the handlers surface before starting any write. -/
inductive ApiErr where
  | notFound
  | invalidRule
deriving DecidableEq

/-- `SELECT * FROM Recurring_Events WHERE id = ?` (first row). -/
def findTemplate (st : DBState) (eventId : Nat) : Option Template :=
  st.templates.find? (fun t => t.id == eventId)

/-- `SELECT instance_date FROM Event_Exceptions WHERE recurring_event_id = ?`
(the subquery of the scoped DELETEs in the PUT handler). -/
def exceptionDates (st : DBState) (eventId : Nat) : List Nat :=
  (st.exceptions.filter (fun e => e.recurring_event_id == eventId)).map
    (fun e => e.instance_date)

/-- Step, in days, between consecutive occurrences: `interval` days for DAILY
and `7 * interval` days for WEEKLY (design document §4.2). -/
def freqStep : Freq → Nat → Nat
  | Freq.daily, i => i
  | Freq.weekly, i => 7 * i

/-- Modelled from the spec: occurrence dates of `generateInstances`, which is
not under the repository's source tree (only its call sites are).  Starting at
the anchor start date, step forward by the frequency step, producing exactly
`count` occurrence dates (generation stops once COUNT occurrences are
produced). -/
def materializeDates (r : RRule) (anchor : Nat) (count : Nat) : List Nat :=
  (List.range count).map (fun k => anchor + k * freqStep r.frequency r.interval)

/-- The instance row data generated for one occurrence date: times, title,
description and location are inherited from the template, and a freshly
generated occurrence is not cancelled. -/
def instanceOfDate (ev : Template) (d : Nat) : InstanceData :=
  { recurring_event_id := ev.id
    instance_date := d
    start_time := ev.start_time
    end_time := ev.end_time
    title := ev.title
    description := ev.description
    location := ev.location
    is_cancelled := false }

/-- Modelled from the spec: `generateInstances(event, rule, count)` as called
at `src/routes/events.js` lines 76 and 319. -/
def generateInstances (ev : Template) (r : RRule) (count : Nat) : List InstanceData :=
  (materializeDates r ev.start_date count).map (instanceOfDate ev)

/-- `recurrenceRule.count || 10` (events.js lines 73 and 316): the number of
instances to generate, defaulting to the safety constant 10 when the rule
carries no COUNT (JS `||` also treats a zero count as absent). -/
def ruleInstanceCount (r : RRule) : Nat :=
  match r.count with
  | some c => if c = 0 then 10 else c
  | none => 10

/-- The instance list generated by the create path
(`src/routes/events.js` lines 71-76). -/
def createGeneratedInstances (ev : Template) (r : RRule) : List InstanceData :=
  generateInstances ev r (ruleInstanceCount r)

/-- The instance list regenerated by the update path
(`src/routes/events.js` lines 315-319). -/
def regenInstances (ev : Template) (r : RRule) : List InstanceData :=
  generateInstances ev r (ruleInstanceCount r)

/-- Does a row with this `(recurring_event_id, instance_date)` key already
exist?  This is the uniqueness key named by the upsert's
`ON CONFLICT(recurring_event_id, instance_date)` clause. -/
def hasKey (st : DBState) (d : InstanceData) : Bool :=
  st.instances.any (fun i =>
    i.recurring_event_id == d.recurring_event_id && i.instance_date == d.instance_date)

/-- The upsert of the PUT handler (`src/routes/events.js` lines 322-333):
`INSERT INTO Event_Instances ... ON CONFLICT(recurring_event_id,
instance_date) DO UPDATE SET start_time, end_time, title, description,
location` — on conflict the existing row keeps its id and its
`is_cancelled` flag; otherwise a fresh row is appended with the next
AUTOINCREMENT id. -/
def upsertInstance (st : DBState) (inst : InstanceData) : DBState :=
  if hasKey st inst then
    { st with
        instances := st.instances.map (fun i =>
          if i.recurring_event_id == inst.recurring_event_id &&
             i.instance_date == inst.instance_date then
            { i with
                start_time := inst.start_time
                end_time := inst.end_time
                title := inst.title
                description := inst.description
                location := inst.location }
          else i) }
  else
    { st with
        instances := st.instances ++ [{ toInstanceData := inst, id := st.nextInstanceId }]
        nextInstanceId := st.nextInstanceId + 1 }

/-- The parsed body of a PUT `/api/events/:id` request, after the required
field validation (title, startTime, endTime, venueId) has passed.
`startDate`/`startTimeOfDay` are the two halves of `data.startTime`; the
single optional `endTime?` mirrors `data.endTime`, from which the handler
takes the date half (falling back to the start date) and the time half. -/
structure PutData where
  title : String
  description : Option String
  startDate : Nat
  startTimeOfDay : String
  endTime? : Option (Nat × String)
  venueId : Nat
  recurrenceRule : Option String
  updateScope : Option String
deriving DecidableEq

/-- The `UPDATE Recurring_Events SET ...` of the PUT handler
(`src/routes/events.js` lines 253-279): every template field is overwritten
in place from the request, the rule-derived columns becoming NULL when no
rule was supplied. -/
def putTemplateFields (data : PutData) (rule? : Option RRule) (t : Template) : Template :=
  { t with
      title := data.title
      description := data.description
      start_date := data.startDate
      end_date := ((data.endTime?).map (fun p => p.1)).getD data.startDate
      frequency := rule?.map (fun r => r.frequency)
      interval := rule?.map (fun r => r.interval)
      days_of_week := rule?.bind (fun r => r.days_of_week)
      start_time := data.startTimeOfDay
      end_time := (data.endTime?).map (fun p => p.2)
      location := data.venueId }

/-- The scope-dependent DELETE of the PUT handler
(`src/routes/events.js` lines 284-306): scope `all` deletes every instance of
the event whose date carries no exception; scope `thisAndFuture` does the
same restricted to dates on or after the current date; scope `this` deletes
nothing. -/
def putScopeDelete (eventId : Nat) (scope : String) (today : Nat) (st : DBState) : DBState :=
  if scope = "all" then
    { st with
        instances := st.instances.filter (fun i =>
          ! ((i.recurring_event_id == eventId) &&
             ! ((exceptionDates st eventId).contains i.instance_date))) }
  else if scope = "thisAndFuture" then
    { st with
        instances := st.instances.filter (fun i =>
          ! ((i.recurring_event_id == eventId) && decide (today ≤ i.instance_date) &&
             ! ((exceptionDates st eventId).contains i.instance_date))) }
  else st

/-- The body of the PUT handler after its checks have passed
(`src/routes/events.js` lines 249-353): update the template row in place,
run the scope-dependent delete, and, when a rule was supplied, regenerate
`recurrenceRule.count || 10` instances from the updated template and upsert
them, skipping dates before the current date when the scope is
`thisAndFuture`.  `today` is the handler's `new Date()` current date. -/
def putApply (eventId : Nat) (data : PutData) (today : Nat) (rule? : Option RRule)
    (st : DBState) : DBState :=
  let st1 : DBState :=
    { st with
        templates := st.templates.map (fun t =>
          if t.id == eventId then putTemplateFields data rule? t else t) }
  let scope := (data.updateScope).getD "all"
  let st2 := putScopeDelete eventId scope today st1
  match rule? with
  | none => st2
  | some r =>
    let updatedEvent := (findTemplate st2 eventId).getD default
    let newInsts := regenInstances updatedEvent r
    newInsts.foldl (fun acc inst =>
      if scope = "thisAndFuture" ∧ inst.instance_date < today then acc
      else upsertInstance acc inst) st2

/-- PUT `/api/events/:id` (`src/routes/events.js` lines 201-383): answer 404
when the event does not exist, 400 when the supplied recurrence rule does not
parse — both checks happen before `BEGIN`, so an error leaves the stored
state untouched — and otherwise apply the update body inside the
transaction. -/
def putHandler (eventId : Nat) (data : PutData) (today : Nat) (st : DBState) :
    Except ApiErr DBState :=
  match findTemplate st eventId with
  | none => Except.error ApiErr.notFound
  | some _ =>
    match data.recurrenceRule with
    | none => Except.ok (putApply eventId data today none st)
    | some s =>
      match parseRRule s with
      | none => Except.error ApiErr.invalidRule
      | some r => Except.ok (putApply eventId data today (some r) st)

/-- `SELECT ... FROM Event_Exceptions WHERE recurring_event_id = ? AND
instance_date = ?` non-emptiness: is this occurrence exception-flagged? -/
def isException (st : DBState) (eventId d : Nat) : Bool :=
  st.exceptions.any (fun e => e.recurring_event_id == eventId && e.instance_date == d)

/-- `INSERT OR IGNORE INTO Event_Exceptions (recurring_event_id,
instance_date, exception_type) VALUES (?, ?, 'cancelled')`
(`src/routes/events.js` lines 453-457 and 474-478), with the ignore keyed on
the intended one-exception-per-(template, date) constraint. -/
def insertExceptionIgnore (st : DBState) (eventId d : Nat) : DBState :=
  if isException st eventId d then st
  else { st with exceptions := st.exceptions ++ [⟨eventId, d, "cancelled"⟩] }

/-- Scope `this` of the DELETE handler (`src/routes/events.js` lines
464-478): mark the one instance at the date cancelled and record a
`cancelled` exception for it. -/
def cancelThisApply (eventId d : Nat) (st : DBState) : DBState :=
  let st1 : DBState :=
    { st with
        instances := st.instances.map (fun i =>
          if i.recurring_event_id == eventId && i.instance_date == d then
            { i with is_cancelled := true }
          else i) }
  insertExceptionIgnore st1 eventId d

/-- Scope `thisAndFuture` of the DELETE handler (`src/routes/events.js`
lines 435-462): mark every instance at or after the pivot date cancelled,
then record a `cancelled` exception for each of those dates. -/
def deleteFutureApply (eventId d : Nat) (st : DBState) : DBState :=
  let st1 : DBState :=
    { st with
        instances := st.instances.map (fun i =>
          if i.recurring_event_id == eventId && decide (d ≤ i.instance_date) then
            { i with is_cancelled := true }
          else i) }
  let futureDates :=
    (st1.instances.filter (fun i =>
      i.recurring_event_id == eventId && decide (d ≤ i.instance_date))).map
      (fun i => i.instance_date)
  futureDates.foldl (fun acc fd => insertExceptionIgnore acc eventId fd) st1

/-- The query parameters of a DELETE `/api/events/:id` request. -/
structure DeleteQuery where
  deleteScope : Option String
  instanceDate : Option Nat
deriving DecidableEq

/-- DELETE `/api/events/:id` (`src/routes/events.js` lines 393-499): 404
before any write when the event does not exist; scope `all` removes the
template with all its instances and exceptions; scopes `thisAndFuture` and
`this` require an `instanceDate` query parameter — when it is absent no
branch fires, the transaction commits having written nothing, and the
handler still answers success. -/
def deleteHandler (eventId : Nat) (q : DeleteQuery) (st : DBState) :
    Except ApiErr DBState :=
  match findTemplate st eventId with
  | none => Except.error ApiErr.notFound
  | some _ =>
    let scope := (q.deleteScope).getD "all"
    if scope = "all" then
      Except.ok
        { st with
            instances := st.instances.filter (fun i => ! (i.recurring_event_id == eventId))
            exceptions := st.exceptions.filter (fun e => ! (e.recurring_event_id == eventId))
            templates := st.templates.filter (fun t => ! (t.id == eventId)) }
    else if scope = "thisAndFuture" then
      match q.instanceDate with
      | some d => Except.ok (deleteFutureApply eventId d st)
      | none => Except.ok st
    else if scope = "this" then
      match q.instanceDate with
      | some d => Except.ok (cancelThisApply eventId d st)
      | none => Except.ok st
    else Except.ok st

/-- Modelled from the spec: the restore-instance endpoint is not under the
repository's source tree (only its test is).  Per the design document,
restoring a cancelled occurrence deletes its exception record, reverting the
occurrence to template-derived values (in particular not cancelled) for that
date only. -/
def restoreInstance (eventId d : Nat) (st : DBState) : DBState :=
  { st with
      exceptions := st.exceptions.filter (fun e =>
        ! (e.recurring_event_id == eventId && e.instance_date == d))
      instances := st.instances.map (fun i =>
        if i.recurring_event_id == eventId && i.instance_date == d then
          { i with is_cancelled := false }
        else i) }

/-- One SQL statement issued by a handler, classified for the transaction
analysis: transaction control, a read, or a write. -/
inductive Stmt where
  | beginTx
  | commitTx
  | rollbackTx
  | read (q : String)
  | write (q : String)
deriving DecidableEq

def allWritesInTxAux : Bool → List Stmt → Bool
  | _, [] => true
  | _, Stmt.beginTx :: r => allWritesInTxAux true r
  | _, Stmt.commitTx :: r => allWritesInTxAux false r
  | _, Stmt.rollbackTx :: r => allWritesInTxAux false r
  | inTx, Stmt.read _ :: r => allWritesInTxAux inTx r
  | inTx, Stmt.write _ :: r => inTx && allWritesInTxAux inTx r

/-- Does every write statement of the sequence execute between a `BEGIN` and
the matching `COMMIT`/`ROLLBACK`?  Writes issued outside a transaction
auto-commit individually in SQLite, so a later failure cannot undo them. -/
def allWritesInTx (tr : List Stmt) : Bool := allWritesInTxAux false tr

/-- The statement sequence of the create path, POST `/api/events`
(`src/routes/events.js` lines 34-83): despite the comment "Create transaction
to ensure all operations succeed or fail together", the template INSERT and
the per-instance INSERTs are issued directly, with no `BEGIN`. -/
def createStatements : List Stmt :=
  [ Stmt.write "INSERT INTO Recurring_Events"
  , Stmt.read "SELECT * FROM Recurring_Events WHERE id = last_insert_rowid()"
  , Stmt.write "INSERT INTO Event_Instances (one per generated instance)" ]

/-- The statement sequence of the update path, PUT `/api/events/:id`
(`src/routes/events.js` lines 221-355): the existence check and rule parse
precede `BEGIN`; every write sits between `BEGIN` and `COMMIT`, with
`ROLLBACK` on error. -/
def updateStatements : List Stmt :=
  [ Stmt.read "SELECT * FROM Recurring_Events WHERE id = ?"
  , Stmt.beginTx
  , Stmt.write "UPDATE Recurring_Events SET ... WHERE id = ?"
  , Stmt.write "DELETE FROM Event_Instances ... (scope-dependent)"
  , Stmt.read "SELECT * FROM Recurring_Events WHERE id = ?"
  , Stmt.write "INSERT INTO Event_Instances ... ON CONFLICT ... DO UPDATE (one per instance)"
  , Stmt.commitTx ]

/-- The statement sequence of the delete path, DELETE `/api/events/:id`
(`src/routes/events.js` lines 393-487): the existence check precedes
`BEGIN`; every write sits between `BEGIN` and `COMMIT`. -/
def deleteStatements : List Stmt :=
  [ Stmt.read "SELECT * FROM Recurring_Events WHERE id = ?"
  , Stmt.beginTx
  , Stmt.write "scope-dependent DELETEs / UPDATEs / exception INSERTs"
  , Stmt.commitTx ]

/-- The uniqueness keys declared by `CREATE TABLE Event_Instances` in the
test-setup schema (the only schema in the repository that creates this
table): the INTEGER PRIMARY KEY `id` — and nothing else.  No UNIQUE
constraint on `(recurring_event_id, instance_date)` is declared. -/
def eventInstancesUniqueKeys : List (List String) := [["id"]]

/-- The conflict target named by the upsert in the PUT handler
(`src/routes/events.js` line 327). -/
def upsertConflictTarget : List String := ["recurring_event_id", "instance_date"]

/-- Projection of an `Event_Instances` row to the named column, as a string
(numeric columns rendered in decimal). -/
def colVal (i : InstanceRow) : String → String
  | "id" => toString i.id
  | "recurring_event_id" => toString i.recurring_event_id
  | "instance_date" => toString i.instance_date
  | "start_time" => i.start_time
  | "title" => i.title
  | _ => ""

def keyTuple (i : InstanceRow) (cols : List String) : List String :=
  cols.map (colVal i)

def allDistinct : List (List String) → Bool
  | [] => true
  | x :: xs => (! xs.contains x) && allDistinct xs

/-- Does this table content satisfy every uniqueness constraint the
`Event_Instances` schema declares? -/
def admittedByEventInstancesSchema (rows : List InstanceRow) : Bool :=
  eventInstancesUniqueKeys.all (fun k => allDistinct (rows.map (fun i => keyTuple i k)))

/-- Assign consecutive AUTOINCREMENT ids, starting at `n`, to a list of
instance data, producing stored rows. -/
def assignIds : Nat → List InstanceData → List InstanceRow
  | _, [] => []
  | n, d :: ds => { toInstanceData := d, id := n } :: assignIds (n + 1) ds

/-- `FREQ=WEEKLY;COUNT=n;INTERVAL=i` as a parsed rule value. -/
def mkWeeklyRule (n interval : Nat) : RRule :=
  ⟨Freq.weekly, interval, some n, none, none⟩

/-- The occurrence dates a weekly rule materializes through the
create/update pipeline (dates of `generateInstances` under the
`count || 10` bound). -/
def weeklyDates (t : Template) (n interval : Nat) : List Nat :=
  (generateInstances t (mkWeeklyRule n interval)
    (ruleInstanceCount (mkWeeklyRule n interval))).map (fun i => i.instance_date)

/-- A concrete weekly template, as created from
`title "Weekly Class", startTime "T10:00:00" on day 0, endTime "T11:00:00"
on day 21, rule FREQ=WEEKLY;COUNT=4, venue 1`. -/
def exTemplate : Template :=
  { id := 1
    title := "Weekly Class"
    description := some "desc"
    start_date := 0
    end_date := 21
    frequency := some Freq.weekly
    interval := some 1
    days_of_week := none
    start_time := "10:00:00"
    end_time := some "11:00:00"
    location := 1 }

/-- The stored state right after creating `exTemplate`: its four generated
instances hold ids 1-4 and the AUTOINCREMENT counter stands at 5. -/
def exState : DBState :=
  { templates := [exTemplate]
    instances := assignIds 1 (generateInstances exTemplate (mkWeeklyRule 4 1) 4)
    exceptions := []
    nextInstanceId := 5 }

/-- A PUT request body carrying the same field values `exTemplate` was
created with, except for the given title, rule text and scope. -/
def mkPutData (title ruleStr scope : String) : PutData :=
  { title := title
    description := some "desc"
    startDate := 0
    startTimeOfDay := "10:00:00"
    endTime? := some (21, "11:00:00")
    venueId := 1
    recurrenceRule := some ruleStr
    updateScope := some scope }

/-- An empty database. -/
def emptyState : DBState := { templates := [], instances := [], exceptions := [], nextInstanceId := 1 }

/-- The ids of the instance rows a handler result holds (`[]` on error). -/
def resultInstanceIds (r : Except ApiErr DBState) : List Nat :=
  match r with
  | Except.ok st => st.instances.map (fun i => i.id)
  | Except.error _ => []

/-- The number of template rows a handler result holds (`0` on error). -/
def resultTemplateCount (r : Except ApiErr DBState) : Nat :=
  match r with
  | Except.ok st => st.templates.length
  | Except.error _ => 0

/-- The title stored for the given event id in a handler result. -/
def resultTitleOf (r : Except ApiErr DBState) (eventId : Nat) : Option String :=
  match r with
  | Except.ok st => (findTemplate st eventId).map (fun t => t.title)
  | Except.error _ => none

/-- Two rows agreeing on `(recurring_event_id, instance_date)` but with
different primary keys. -/
def dupRow1 : InstanceRow :=
  { toInstanceData := instanceOfDate exTemplate 100, id := 1 }

def dupRow2 : InstanceRow :=
  { toInstanceData := instanceOfDate exTemplate 100, id := 2 }

/-- The instance-table content for one template, keyed by
`(recurring_event_id, instance_date)`: the data columns of the template's
rows, with the row identity (`id`) stripped. -/
def eidData (st : DBState) (eventId : Nat) : List InstanceData :=
  (st.instances.filter (fun i => i.recurring_event_id == eventId)).map
    (fun i => i.toInstanceData)

/-- The instance rows belonging to every other template, kept with their row
identity. -/
def otherRows (st : DBState) (eventId : Nat) : List InstanceRow :=
  st.instances.filter (fun i => ! (i.recurring_event_id == eventId))

/-- The request of the `thisAndFuture` scenario: same field values, a new
title, the unchanged rule. -/
def c1Data : PutData := mkPutData "New Title" "FREQ=WEEKLY;COUNT=4" "thisAndFuture"

/-- The state the `thisAndFuture` update of `c1Data` at current date 14
produces on `exState`. -/
def c1ResultState : DBState := putApply 1 c1Data 14 (some (mkWeeklyRule 4 1)) exState

/-- The request of the scope-`all` COUNT 4 → 6 scenario: all fields
unchanged, only the COUNT grows. -/
def c4Data : PutData := mkPutData "Weekly Class" "FREQ=WEEKLY;COUNT=6" "all"

/-- The request of the idempotence scenario: every field and the rule an
exact repeat of what `exTemplate` was created with. -/
def c5Data : PutData := mkPutData "Weekly Class" "FREQ=WEEKLY;COUNT=4" "all"

/-- The state the scope-`all` re-application of the unchanged rule produces
on `exState`. -/
def c5ResultState : DBState := putApply 1 c5Data 0 (some (mkWeeklyRule 4 1)) exState

/-- A PUT body carrying an unparseable recurrence rule. -/
def c9BadRuleData : PutData := mkPutData "Weekly Class" "INVALID_RULE" "all"

lemma upsert_templates (A : DBState) (d : InstanceData) :
    (upsertInstance A d).templates = A.templates := by
  unfold upsertInstance; split <;> rfl

lemma upsert_exceptions (A : DBState) (d : InstanceData) :
    (upsertInstance A d).exceptions = A.exceptions := by
  unfold upsertInstance; split <;> rfl

lemma foldPut_templates (scope : String) (today : Nat) (L : List InstanceData) (A : DBState) :
    (L.foldl (fun acc inst =>
        if scope = "thisAndFuture" ∧ inst.instance_date < today then acc
        else upsertInstance acc inst) A).templates = A.templates := by
  induction L generalizing A with
  | nil => rfl
  | cons d L ih =>
    rw [List.foldl_cons, ih]
    by_cases h : scope = "thisAndFuture" ∧ d.instance_date < today
    · rw [if_pos h]
    · rw [if_neg h, upsert_templates]

lemma foldPut_exceptions (scope : String) (today : Nat) (L : List InstanceData) (A : DBState) :
    (L.foldl (fun acc inst =>
        if scope = "thisAndFuture" ∧ inst.instance_date < today then acc
        else upsertInstance acc inst) A).exceptions = A.exceptions := by
  induction L generalizing A with
  | nil => rfl
  | cons d L ih =>
    rw [List.foldl_cons, ih]
    by_cases h : scope = "thisAndFuture" ∧ d.instance_date < today
    · rw [if_pos h]
    · rw [if_neg h, upsert_exceptions]

lemma putScopeDelete_templates (eventId : Nat) (scope : String) (today : Nat) (st : DBState) :
    (putScopeDelete eventId scope today st).templates = st.templates := by
  unfold putScopeDelete; split <;> try rfl
  split <;> rfl

lemma putScopeDelete_exceptions (eventId : Nat) (scope : String) (today : Nat) (st : DBState) :
    (putScopeDelete eventId scope today st).exceptions = st.exceptions := by
  unfold putScopeDelete; split <;> try rfl
  split <;> rfl

lemma putApply_templates (eventId : Nat) (data : PutData) (today : Nat)
    (rule? : Option RRule) (st : DBState) :
    (putApply eventId data today rule? st).templates
      = st.templates.map (fun t => if t.id == eventId then putTemplateFields data rule? t else t) := by
  cases rule? with
  | none => simp only [putApply, putScopeDelete_templates]
  | some r => simp only [putApply, foldPut_templates, putScopeDelete_templates]

lemma putApply_exceptions (eventId : Nat) (data : PutData) (today : Nat)
    (rule? : Option RRule) (st : DBState) :
    (putApply eventId data today rule? st).exceptions = st.exceptions := by
  cases rule? with
  | none => simp only [putApply, putScopeDelete_exceptions]
  | some r => simp only [putApply, foldPut_exceptions, putScopeDelete_exceptions]

/-- C2: the only CREATE TABLE of `Event_Instances` in the repository declares
the INTEGER PRIMARY KEY `id` as its sole uniqueness constraint, so two rows
sharing a `(recurring_event_id, instance_date)` pair but differing in `id`
satisfy every declared constraint, and the `ON CONFLICT(recurring_event_id,
instance_date)` target of the route's upsert names no declared constraint —
refuting the claimed schema-enforced uniqueness of the pair. -/
theorem event_instances_schema_admits_duplicate_pair :
    admittedByEventInstancesSchema [dupRow1, dupRow2] = true
    ∧ dupRow1.recurring_event_id = dupRow2.recurring_event_id
    ∧ dupRow1.instance_date = dupRow2.instance_date
    ∧ dupRow1.id ≠ dupRow2.id
    ∧ eventInstancesUniqueKeys.contains upsertConflictTarget = false := by
  decide

/-- C3: the statement sequences of the three mutation paths, as issued by
`src/routes/events.js`: the PUT and DELETE handlers wrap every write in
BEGIN/COMMIT, but the POST (create) handler issues its template INSERT and
its per-instance INSERTs with no transaction at all — so a failure between
them leaves the template row persisted without its instances, refuting the
claim for the create path. -/
theorem create_writes_outside_transaction :
    allWritesInTx createStatements = false
    ∧ allWritesInTx updateStatements = true
    ∧ allWritesInTx deleteStatements = true := by
  decide

/-- C4: updating the COUNT=4 series of `exState` (instance ids 1-4,
AUTOINCREMENT counter at 5) to COUNT=6 with scope `all` and no other field
change deletes all four rows and inserts six fresh ones: the resulting ids
are 5-10, none of the original identifiers 1-4 survives — refuting the
claimed preservation of the original four instance identifiers. -/
theorem scope_all_regeneration_replaces_instance_ids :
    exState.instances.map (fun i => i.id) = [1, 2, 3, 4]
    ∧ resultInstanceIds (putHandler 1 c4Data 0 exState) = [5, 6, 7, 8, 9, 10] := by
  decide

/-- C1 (counterexample): applying a `thisAndFuture` update (new title,
unchanged rule) to `exState` at current date 14 leaves exactly one template
row — no second template is materialized — and that single original row now
carries the new title: the template is updated in place, contrary to the
claim. -/
theorem thisAndFuture_no_split_concrete :
    exState.templates.length = 1
    ∧ resultTemplateCount (putHandler 1 c1Data 14 exState) = 1
    ∧ resultTitleOf (putHandler 1 c1Data 14 exState) 1 = some "New Title" := by
  decide

/-- C8: when a rule supplies neither COUNT nor UNTIL, the `count || 10`
bound of the route makes both the create path and the scope-`all`
regeneration path materialize exactly the default safety constant of 10
occurrences. -/
theorem default_instance_bound_ten (r : RRule) (ev : Template)
    (hc : r.count = none) (hu : r.untilRaw = none) :
    ruleInstanceCount r = 10
    ∧ (createGeneratedInstances ev r).length = 10
    ∧ (regenInstances ev r).length = 10 := by
  have h1 : ruleInstanceCount r = 10 := by simp [ruleInstanceCount, hc]
  refine ⟨h1, ?_, ?_⟩ <;>
    simp [createGeneratedInstances, regenInstances, generateInstances, materializeDates, h1]

/-- Witness for C8 at a concrete unbounded weekly rule. -/
theorem default_instance_bound_ten_witness :
    ruleInstanceCount ⟨Freq.weekly, 1, none, none, none⟩ = 10 :=
  (default_instance_bound_ten ⟨Freq.weekly, 1, none, none, none⟩ exTemplate rfl rfl).1

/-- C9: an update or delete naming a nonexistent template id is answered
`NotFound`, and an update carrying an unparseable recurrence rule is
answered `InvalidRule`; in each case the handler errors out before reaching
its transaction, producing no successor state — the stored state is
unchanged. -/
theorem notfound_invalidrule_rejected_before_write
    (st : DBState) (eventId today : Nat) (pd : PutData) (dq : DeleteQuery) (s : String) :
    (findTemplate st eventId = none →
        putHandler eventId pd today st = Except.error ApiErr.notFound)
    ∧ (findTemplate st eventId = none →
        deleteHandler eventId dq st = Except.error ApiErr.notFound)
    ∧ ((findTemplate st eventId).isSome = true → pd.recurrenceRule = some s →
        parseRRule s = none →
        putHandler eventId pd today st = Except.error ApiErr.invalidRule) := by
  refine ⟨?_, ?_, ?_⟩
  · intro h; simp [putHandler, h]
  · intro h; simp [deleteHandler, h]
  · intro h hr hp
    obtain ⟨t, ht⟩ := Option.isSome_iff_exists.mp h
    simp [putHandler, ht, hr, hp]

/-- Witness for C9: a missing id is refused by both handlers on the empty
database, and the unparseable rule text `INVALID_RULE` is refused on
`exState`. -/
theorem notfound_invalidrule_rejected_before_write_witness :
    putHandler 1 c9BadRuleData 0 emptyState = Except.error ApiErr.notFound
    ∧ deleteHandler 1 ⟨some "all", none⟩ emptyState = Except.error ApiErr.notFound
    ∧ putHandler 1 c9BadRuleData 0 exState = Except.error ApiErr.invalidRule :=
  ⟨(notfound_invalidrule_rejected_before_write emptyState 1 0 c9BadRuleData ⟨some "all", none⟩
      "INVALID_RULE").1 rfl,
   (notfound_invalidrule_rejected_before_write emptyState 1 0 c9BadRuleData ⟨some "all", none⟩
      "INVALID_RULE").2.1 rfl,
   (notfound_invalidrule_rejected_before_write exState 1 0 c9BadRuleData ⟨some "all", none⟩
      "INVALID_RULE").2.2 rfl rfl rfl⟩

/-- C10: a delete request with scope `this` or `thisAndFuture` but no
`instanceDate` query parameter matches none of the handler's branches: the
state comes back exactly unchanged, yet the handler still commits and
answers success rather than an error. -/
theorem delete_scope_without_instance_date_noop
    (st : DBState) (eventId : Nat) (scope : String)
    (hT : (findTemplate st eventId).isSome = true)
    (hs : scope = "this" ∨ scope = "thisAndFuture") :
    deleteHandler eventId ⟨some scope, none⟩ st = Except.ok st := by
  obtain ⟨t, ht⟩ := Option.isSome_iff_exists.mp hT
  have h1 : ¬ (("this" : String) = "all") := by decide
  have h2 : ¬ (("this" : String) = "thisAndFuture") := by decide
  have h3 : ¬ (("thisAndFuture" : String) = "all") := by decide
  rcases hs with h | h <;> subst h <;> simp [deleteHandler, ht, h1, h2, h3]

/-- Witness for C10 on the concrete state. -/
theorem delete_scope_without_instance_date_noop_witness :
    deleteHandler 1 ⟨some "this", none⟩ exState = Except.ok exState :=
  delete_scope_without_instance_date_noop exState 1 "this" rfl (Or.inl rfl)

lemma freqStep_pos (f : Freq) (i : Nat) (hi : 0 < i) : 0 < freqStep f i := by
  cases f <;> simp [freqStep] <;> omega

lemma materializeDates_length (r : RRule) (a c : Nat) :
    (materializeDates r a c).length = c := by
  simp [materializeDates]

lemma materializeDates_pairwise (r : RRule) (a c : Nat) (hi : 0 < r.interval) :
    (materializeDates r a c).Pairwise (fun x y => x < y) := by
  have hstep := freqStep_pos r.frequency r.interval hi
  refine (List.pairwise_lt_range c).map _ (fun x y hxy => ?_)
  have := mul_lt_mul_of_pos_right hxy hstep
  omega

lemma generateInstances_dates (ev : Template) (r : RRule) (c : Nat) :
    (generateInstances ev r c).map (fun d => d.instance_date)
      = materializeDates r ev.start_date c := by
  rw [generateInstances, List.map_map]
  exact (List.map_congr_left (fun a _ => rfl)).trans (List.map_id' _)

/-- C6: every weekly rule `FREQ=WEEKLY;COUNT=n` (positive n, any positive
INTERVAL) materializes, through the route's `count || 10` pipeline, exactly
`n` occurrence dates, consecutive dates exactly `7 * INTERVAL` days apart,
in strictly ascending order. -/
theorem weekly_count_rule_materialization (t : Template) (n interval : Nat)
    (hn : 0 < n) (hi : 0 < interval) :
    ruleInstanceCount (mkWeeklyRule n interval) = n
    ∧ (weeklyDates t n interval).length = n
    ∧ (∀ k, k + 1 < n →
        (weeklyDates t n interval).getD (k + 1) 0
          = (weeklyDates t n interval).getD k 0 + 7 * interval)
    ∧ (weeklyDates t n interval).Pairwise (fun a b => a < b) := by
  have hne : n ≠ 0 := Nat.pos_iff_ne_zero.mp hn
  have hcnt : ruleInstanceCount (mkWeeklyRule n interval) = n := by
    simp [ruleInstanceCount, mkWeeklyRule, hne]
  have hdates : weeklyDates t n interval
      = (List.range n).map (fun k => t.start_date + k * (7 * interval)) := by
    rw [weeklyDates, generateInstances_dates, hcnt]
    simp [materializeDates, mkWeeklyRule, freqStep]
  refine ⟨hcnt, ?_, ?_, ?_⟩
  · rw [hdates]; simp
  · intro k hk
    have hk1 : k < n := by omega
    rw [hdates, List.getD_eq_getElem?_getD, List.getD_eq_getElem?_getD,
      List.getElem?_map, List.getElem?_map, List.getElem?_range hk, List.getElem?_range hk1]
    simp [Nat.add_mul]
    ring
  · rw [hdates]
    refine (List.pairwise_lt_range n).map _ (fun x y hxy => ?_)
    have := mul_lt_mul_of_pos_right hxy (show 0 < 7 * interval by omega)
    omega

/-- Witness for C6 at `n = 3`, `INTERVAL = 2`. -/
theorem weekly_count_rule_materialization_witness :
    (weeklyDates exTemplate 3 2).length = 3 :=
  (weekly_count_rule_materialization exTemplate 3 2 (by decide) (by decide)).2.1

/-- C7: scope-`this` cancel followed by restore is a round trip.  Cancelling
the occurrence at date `d` flips `is_cancelled` to true on exactly that
instance and records a `cancelled` exception (the occurrence becomes
exception-flagged) while every row — the cancelled one included — stays
present and addressable; restoring deletes the exception record and clears
the flag for that date only, returning the stored state exactly to what it
was, so every other instance is untouched by both steps. -/
theorem cancel_restore_round_trip
    (st : DBState) (eventId d : Nat) (t : Template)
    (ht : findTemplate st eventId = some t)
    (hex : isException st eventId d = false)
    (hflag : ∀ i ∈ st.instances, i.recurring_event_id = eventId →
        i.instance_date = d → i.is_cancelled = false) :
    deleteHandler eventId ⟨some "this", some d⟩ st
        = Except.ok (cancelThisApply eventId d st)
    ∧ (∀ i ∈ (cancelThisApply eventId d st).instances,
        i.recurring_event_id = eventId → i.instance_date = d → i.is_cancelled = true)
    ∧ isException (cancelThisApply eventId d st) eventId d = true
    ∧ (cancelThisApply eventId d st).instances.map
          (fun i => (i.id, i.recurring_event_id, i.instance_date))
        = st.instances.map (fun i => (i.id, i.recurring_event_id, i.instance_date))
    ∧ (∀ i ∈ st.instances, ¬(i.recurring_event_id = eventId ∧ i.instance_date = d) →
        i ∈ (cancelThisApply eventId d st).instances)
    ∧ restoreInstance eventId d (cancelThisApply eventId d st) = st := by
  have hC : cancelThisApply eventId d st
      = { st with
            instances := st.instances.map (fun i =>
              if i.recurring_event_id == eventId && i.instance_date == d then
                { i with is_cancelled := true }
              else i)
            exceptions := st.exceptions ++ [⟨eventId, d, "cancelled"⟩] } := by
    simp only [cancelThisApply, insertExceptionIgnore]
    have hfalse : isException
        { st with
            instances := st.instances.map (fun i =>
              if i.recurring_event_id == eventId && i.instance_date == d then
                { i with is_cancelled := true }
              else i) } eventId d = false := hex
    rw [if_neg (by rw [hfalse]; simp)]
  refine ⟨?_, ?_, ?_, ?_, ?_, ?_⟩
  · have h1 : ¬ (("this" : String) = "all") := by decide
    have h2 : ¬ (("this" : String) = "thisAndFuture") := by decide
    simp [deleteHandler, ht, h1, h2]
  · rw [hC]
    intro i hi hrid hdate
    obtain ⟨i0, hi0, rfl⟩ := List.mem_map.mp hi
    by_cases hc : (i0.recurring_event_id == eventId && i0.instance_date == d) = true
    · simp [hc]
    · rw [if_neg hc] at hrid hdate ⊢
      exact absurd (by simp [hrid, hdate]) hc
  · rw [hC]
    simp [isException, List.any_append]
  · rw [hC]
    show (st.instances.map _).map _ = _
    rw [List.map_map]
    apply List.map_congr_left
    intro i0 _
    by_cases hc : (i0.recurring_event_id == eventId && i0.instance_date == d) = true <;>
      simp [Function.comp, hc]
  · intro i hi hnm
    rw [hC]
    have hb : ¬ ((i.recurring_event_id == eventId && i.instance_date == d) = true) := by
      simpa using hnm
    exact List.mem_map.mpr ⟨i, hi, if_neg hb⟩
  · rw [hC]
    obtain ⟨tps, ins, exs, nid⟩ := st
    simp only [restoreInstance]
    have hexs : ∀ e2 ∈ exs,
        (! (e2.recurring_event_id == eventId && e2.instance_date == d)) = true := by
      intro e2 he2
      have := (List.any_eq_false.mp hex) e2 he2
      simp at this ⊢
      tauto
    congr 1
    · rw [List.map_map]
      refine (List.map_congr_left ?_).trans (List.map_id' _)
      intro i0 hi0
      obtain ⟨⟨rid0, dt0, sts0, ets0, ttl0, dsc0, loc0, cc0⟩, id0⟩ := i0
      by_cases hc : ((rid0 == eventId && dt0 == d) = true)
      · have hrid : rid0 = eventId := by
          have h1 := (Bool.and_eq_true _ _).mp hc
          simpa using h1.1
        have hdt : dt0 = d := by
          have h1 := (Bool.and_eq_true _ _).mp hc
          simpa using h1.2
        have hcc : cc0 = false := hflag _ hi0 hrid hdt
        subst hcc
        simp [Function.comp, hc]
      · simp [Function.comp, hc]
    · rw [List.filter_append]
      have h2 : List.filter (fun e2 =>
          ! (e2.recurring_event_id == eventId && e2.instance_date == d))
          [(⟨eventId, d, "cancelled"⟩ : ExceptionRow)] = [] := by simp
      rw [h2, List.filter_eq_self.mpr hexs, List.append_nil]

/-- Witness for C7: cancel of the date-14 occurrence on the concrete state. -/
theorem cancel_restore_round_trip_witness :
    deleteHandler 1 ⟨some "this", some 14⟩ exState
      = Except.ok (cancelThisApply 1 14 exState) :=
  (cancel_restore_round_trip exState 1 14 exTemplate rfl rfl (by decide)).1

lemma upsert_existing_id (A : DBState) (d : InstanceData)
    (hk : hasKey A d = true)
    (h3 : ∀ i ∈ A.instances, i.recurring_event_id = d.recurring_event_id →
        i.instance_date = d.instance_date → i.toInstanceData = d) :
    upsertInstance A d = A := by
  unfold upsertInstance
  rw [if_pos hk]
  have hmap : A.instances.map (fun i =>
      if i.recurring_event_id == d.recurring_event_id &&
         i.instance_date == d.instance_date then
        { i with
            start_time := d.start_time
            end_time := d.end_time
            title := d.title
            description := d.description
            location := d.location }
      else i) = A.instances := by
    refine (List.map_congr_left ?_).trans (List.map_id' _)
    intro i hi
    by_cases hm : ((i.recurring_event_id == d.recurring_event_id &&
        i.instance_date == d.instance_date) = true)
    · rw [if_pos hm]
      have h1 := (Bool.and_eq_true _ _).mp hm
      have hrid : i.recurring_event_id = d.recurring_event_id := by simpa using h1.1
      have hdt : i.instance_date = d.instance_date := by simpa using h1.2
      have hdata := h3 i hi hrid hdt
      obtain ⟨⟨rid0, dt0, sts0, ets0, ttl0, dsc0, loc0, cc0⟩, id0⟩ := i
      obtain ⟨rid1, dt1, sts1, ets1, ttl1, dsc1, loc1, cc1⟩ := d
      injection hdata with e1 e2 e3 e4 e5 e6 e7 e8
      subst e1; subst e2; subst e3; subst e4; subst e5; subst e6; subst e7; subst e8
      rfl
    · rw [if_neg hm]
  rw [hmap]

lemma upsert_missing (A : DBState) (d : InstanceData) (hk : hasKey A d = false) :
    upsertInstance A d
      = { A with
            instances := A.instances ++ [{ toInstanceData := d, id := A.nextInstanceId }]
            nextInstanceId := A.nextInstanceId + 1 } := by
  unfold upsertInstance
  rw [if_neg (by simp [hk])]

lemma hasKey_append_row (A : DBState) (d d2 : InstanceData) (nid : Nat) :
    hasKey { A with
        instances := A.instances ++ [{ toInstanceData := d, id := nid }]
        nextInstanceId := nid + 1 } d2
      = (hasKey A d2 ||
          (d.recurring_event_id == d2.recurring_event_id &&
           d.instance_date == d2.instance_date)) := by
  simp [hasKey, List.any_append]

lemma foldl_upsert_spec (L : List InstanceData) (A : DBState)
    (h2 : L.Pairwise (fun a b =>
        ¬(a.recurring_event_id = b.recurring_event_id ∧ a.instance_date = b.instance_date)))
    (h3 : ∀ d ∈ L, ∀ i ∈ A.instances, i.recurring_event_id = d.recurring_event_id →
        i.instance_date = d.instance_date → i.toInstanceData = d) :
    L.foldl (fun acc inst => upsertInstance acc inst) A
      = { A with
            instances := A.instances ++
              assignIds A.nextInstanceId (L.filter (fun d => ! hasKey A d))
            nextInstanceId :=
              A.nextInstanceId + (L.filter (fun d => ! hasKey A d)).length } := by
  induction L generalizing A with
  | nil => simp [assignIds]
  | cons d L ih =>
    rw [List.foldl_cons]
    cases hk : hasKey A d with
    | true =>
      have hup : upsertInstance A d = A :=
        upsert_existing_id A d hk (h3 d (List.mem_cons_self d L))
      rw [hup, List.filter_cons]
      have hfd : (! hasKey A d) = false := by rw [hk]; rfl
      rw [hfd]
      simp only [Bool.false_eq_true, if_false]
      exact ih A h2.of_cons (fun d2 hd2 i hi => h3 d2 (List.mem_cons_of_mem d hd2) i hi)
    | false =>
      rw [upsert_missing A d hk]
      have hkeys : ∀ d2 ∈ L,
          hasKey { A with
              instances := A.instances ++ [{ toInstanceData := d, id := A.nextInstanceId }]
              nextInstanceId := A.nextInstanceId + 1 } d2 = hasKey A d2 := by
        intro d2 hd2
        rw [hasKey_append_row]
        have hne := List.rel_of_pairwise_cons h2 hd2
        have hz : (d.recurring_event_id == d2.recurring_event_id &&
            d.instance_date == d2.instance_date) = false := by
          rw [Bool.eq_false_iff]
          intro hcontra
          have h1 := (Bool.and_eq_true _ _).mp hcontra
          exact hne ⟨by simpa using h1.1, by simpa using h1.2⟩
        rw [hz, Bool.or_false]
      have h3A2 : ∀ d2 ∈ L, ∀ i ∈ ({ A with
              instances := A.instances ++ [{ toInstanceData := d, id := A.nextInstanceId }]
              nextInstanceId := A.nextInstanceId + 1 } : DBState).instances,
          i.recurring_event_id = d2.recurring_event_id →
          i.instance_date = d2.instance_date → i.toInstanceData = d2 := by
        intro d2 hd2 i hi hrid hdt
        rcases List.mem_append.mp hi with hiA | hinew
        · exact h3 d2 (List.mem_cons_of_mem d hd2) i hiA hrid hdt
        · have hieq : i = { toInstanceData := d, id := A.nextInstanceId } := by
            simpa using hinew
          subst hieq
          exact absurd ⟨hrid, hdt⟩ (List.rel_of_pairwise_cons h2 hd2)
      rw [ih _ h2.of_cons h3A2]
      have hfeq : List.filter (fun d2 =>
          ! hasKey { A with
              instances := A.instances ++ [{ toInstanceData := d, id := A.nextInstanceId }]
              nextInstanceId := A.nextInstanceId + 1 } d2) L
          = List.filter (fun d2 => ! hasKey A d2) L :=
        List.filter_congr (fun x hx => by rw [hkeys x hx])
      rw [hfeq]
      rw [List.filter_cons]
      have hfd : (! hasKey A d) = true := by rw [hk]; rfl
      rw [hfd, if_pos rfl]
      show DBState.mk _ _ _ _ = DBState.mk _ _ _ _
      congr 1
      · show (A.instances ++ [{ toInstanceData := d, id := A.nextInstanceId }]) ++ _
          = A.instances ++ assignIds A.nextInstanceId (d :: _)
        rw [List.append_assoc]
        rfl
      · show A.nextInstanceId + 1 + (List.filter _ L).length
          = A.nextInstanceId + (d :: List.filter _ L).length
        simp only [List.length_cons]
        omega

lemma findTemplate_map_update (l : List Template) (eventId : Nat) (data : PutData)
    (rule? : Option RRule) :
    (l.map (fun t => if t.id == eventId then putTemplateFields data rule? t else t)).find?
        (fun t => t.id == eventId)
      = (l.find? (fun t => t.id == eventId)).map (putTemplateFields data rule?) := by
  induction l with
  | nil => rfl
  | cons a l ih =>
    by_cases h : (a.id == eventId) = true
    · rw [List.map_cons, if_pos h]
      have h2 : ((putTemplateFields data rule? a).id == eventId) = true := h
      rw [@List.find?_cons_of_pos Template (fun t => t.id == eventId) (putTemplateFields data rule? a) _ h2]
      rw [@List.find?_cons_of_pos Template (fun t => t.id == eventId) a _ h]
      rfl
    · rw [List.map_cons, if_neg h]
      rw [@List.find?_cons_of_neg Template (fun t => t.id == eventId) a _ h]
      rw [@List.find?_cons_of_neg Template (fun t => t.id == eventId) a _ h]
      rw [ih]

lemma assignIds_data (n : Nat) (L : List InstanceData) :
    (assignIds n L).map (fun i => i.toInstanceData) = L := by
  induction L generalizing n with
  | nil => rfl
  | cons d L ih => simp [assignIds, ih]

lemma mem_assignIds_data (n : Nat) (L : List InstanceData) (i : InstanceRow)
    (hi : i ∈ assignIds n L) : i.toInstanceData ∈ L := by
  have := List.mem_map_of_mem (fun i => i.toInstanceData) hi
  rwa [assignIds_data] at this

lemma generateInstances_rid (ev : Template) (r : RRule) (c : Nat) :
    ∀ d ∈ generateInstances ev r c, d.recurring_event_id = ev.id := by
  intro d hd
  obtain ⟨x, hx, rfl⟩ := List.mem_map.mp hd
  rfl

lemma generateInstances_pairwise (ev : Template) (r : RRule) (c : Nat) (hi : 0 < r.interval) :
    (generateInstances ev r c).Pairwise (fun a b => a.instance_date ≠ b.instance_date) := by
  refine (materializeDates_pairwise r ev.start_date c hi).map _ (fun x y hxy => ?_)
  simp [instanceOfDate]
  omega

lemma data_eq_of_mem_dates_unique (L : List InstanceData)
    (hL : L.Pairwise (fun a b => a.instance_date ≠ b.instance_date))
    {x y : InstanceData} (hx : x ∈ L) (hy : y ∈ L)
    (hd : x.instance_date = y.instance_date) : x = y := by
  induction L with
  | nil => cases hx
  | cons a L ih =>
    cases hx with
    | head =>
      cases hy with
      | head => rfl
      | tail _ hy2 => exact absurd hd (List.rel_of_pairwise_cons hL hy2)
    | tail _ hx2 =>
      cases hy with
      | head => exact absurd hd.symm (List.rel_of_pairwise_cons hL hx2)
      | tail _ hy2 => exact ih hL.of_cons hx2 hy2

lemma map_filter_comm (l : List InstanceRow) (q : InstanceData → Bool) :
    (l.filter (fun a => q a.toInstanceData)).map (fun a => a.toInstanceData)
      = (l.map (fun a => a.toInstanceData)).filter q := by
  induction l with
  | nil => rfl
  | cons a l ih =>
    cases h : q a.toInstanceData <;> simp [List.filter_cons, h, ih]

lemma eid_keep_filter_comm (rows : List InstanceRow) (eventId : Nat) (E : List Nat) :
    ((rows.filter (fun i =>
        ! ((i.recurring_event_id == eventId) && ! (E.contains i.instance_date)))).filter
        (fun i => i.recurring_event_id == eventId)).map (fun i => i.toInstanceData)
      = ((rows.filter (fun i => i.recurring_event_id == eventId)).map
          (fun i => i.toInstanceData)).filter (fun d => E.contains d.instance_date) := by
  induction rows with
  | nil => rfl
  | cons a rows ih =>
    by_cases h1 : (a.recurring_event_id == eventId) = true
    · cases h2 : E.contains a.instance_date <;>
        simp only [List.filter_cons, List.map_cons, h1, h2, Bool.not_true, Bool.not_false,
          Bool.and_false, Bool.and_true, Bool.true_and, Bool.false_and, Bool.not_eq_true,
          eq_self_iff_true, if_true, if_false, Bool.false_eq_true, ih]
    · have h1f : (a.recurring_event_id == eventId) = false := by
        cases hx : (a.recurring_event_id == eventId)
        · rfl
        · exact absurd hx h1
      simp only [List.filter_cons, List.map_cons, h1f, Bool.not_true, Bool.not_false,
        Bool.and_false, Bool.and_true, Bool.true_and, Bool.false_and,
        eq_self_iff_true, if_true, if_false, Bool.false_eq_true, ih]

lemma eid_filter_append_spec (rows : List InstanceRow) (eventId : Nat)
    (L : List InstanceData) (E : List Nat) (n : Nat)
    (hcons2 : (rows.filter (fun i => i.recurring_event_id == eventId)).map
        (fun i => i.toInstanceData) = L)
    (hridL : ∀ dd ∈ L, dd.recurring_event_id = eventId) :
    ((rows.filter (fun i =>
          ! ((i.recurring_event_id == eventId) && ! (E.contains i.instance_date)))
        ++ assignIds n (L.filter (fun d => ! E.contains d.instance_date))).filter
        (fun i => i.recurring_event_id == eventId)).map (fun i => i.toInstanceData)
      = L.filter (fun d => E.contains d.instance_date)
        ++ L.filter (fun d => ! E.contains d.instance_date) := by
  rw [List.filter_append, List.map_append]
  congr 1
  · rw [eid_keep_filter_comm, hcons2]
  · have hall : ∀ row ∈ assignIds n (L.filter (fun d => ! E.contains d.instance_date)),
        (row.recurring_event_id == eventId) = true := by
      intro row hrow
      have h1 := mem_assignIds_data _ _ _ hrow
      have h2 := hridL row.toInstanceData (List.mem_of_mem_filter h1)
      simpa using h2
    rw [List.filter_eq_self.mpr hall, assignIds_data]

lemma other_filter_append_spec (rows : List InstanceRow) (eventId : Nat)
    (L : List InstanceData) (E : List Nat) (n : Nat)
    (hridL : ∀ dd ∈ L, dd.recurring_event_id = eventId) :
    (rows.filter (fun i =>
          ! ((i.recurring_event_id == eventId) && ! (E.contains i.instance_date)))
        ++ assignIds n (L.filter (fun d => ! E.contains d.instance_date))).filter
        (fun i => ! (i.recurring_event_id == eventId))
      = rows.filter (fun i => ! (i.recurring_event_id == eventId)) := by
  rw [List.filter_append]
  have hnil : (assignIds n (L.filter (fun d => ! E.contains d.instance_date))).filter
      (fun i => ! (i.recurring_event_id == eventId)) = [] := by
    rw [List.filter_eq_nil_iff]
    intro row hrow
    have h1 := mem_assignIds_data _ _ _ hrow
    have h2 := hridL row.toInstanceData (List.mem_of_mem_filter h1)
    simp [show row.recurring_event_id = eventId from h2]
  rw [hnil, List.append_nil, List.filter_filter]
  apply List.filter_congr
  intro i hi
  cases h1 : (i.recurring_event_id == eventId) <;> simp [h1]

/-- C5: scope-`all` regeneration is idempotent at the level of the
`(template, date)` key.  For a template whose instance set is already
consistent with its rule (the keyed data of its rows equals what
regeneration from the identically-valued request would produce), re-applying
the same rule with no field change leaves the per-key instance data of the
template unchanged up to order (zero inserted, deleted or updated keys),
leaves every other template's rows untouched row-for-row, and leaves the
exception table unchanged.  Row identity is not part of the key: the
implementation deletes and re-inserts the non-exception rows, so ids do
change (see the scope-`all` id theorem). -/
theorem scope_all_regeneration_idempotent
    (st : DBState) (eventId today : Nat) (data : PutData) (t : Template)
    (s : String) (r : RRule)
    (ht : findTemplate st eventId = some t)
    (hs : data.recurrenceRule = some s)
    (hp : parseRRule s = some r)
    (hi : 0 < r.interval)
    (hscope : data.updateScope = some "all")
    (hcons : eidData st eventId = regenInstances (putTemplateFields data (some r) t) r) :
    putHandler eventId data today st = Except.ok (putApply eventId data today (some r) st)
    ∧ (eidData (putApply eventId data today (some r) st) eventId).Perm (eidData st eventId)
    ∧ otherRows (putApply eventId data today (some r) st) eventId = otherRows st eventId
    ∧ (putApply eventId data today (some r) st).exceptions = st.exceptions := by
  have htid : t.id = eventId := by
    have h1 := List.find?_some
      (show st.templates.find? (fun x => x.id == eventId) = some t from ht)
    simpa using h1
  have hhandler : putHandler eventId data today st
      = Except.ok (putApply eventId data today (some r) st) := by
    simp only [putHandler, ht, hs, hp]
  obtain ⟨dT, dD, dSd, dStod, dEt, dVid, dRR, dUS⟩ := data
  replace hs : dRR = some s := hs
  replace hscope : dUS = some "all" := hscope
  subst hs
  subst hscope
  refine ⟨hhandler, ?conc⟩
  case conc =>
  have hfind2 : findTemplate
      { st with
          templates := st.templates.map (fun t0 =>
            if t0.id == eventId then
              putTemplateFields ⟨dT, dD, dSd, dStod, dEt, dVid, some s, some "all"⟩ (some r) t0
            else t0)
          instances := st.instances.filter (fun i =>
            ! ((i.recurring_event_id == eventId) &&
               ! ((exceptionDates st eventId).contains i.instance_date))) } eventId
      = some (putTemplateFields ⟨dT, dD, dSd, dStod, dEt, dVid, some s, some "all"⟩ (some r) t) := by
    show (st.templates.map (fun t0 =>
        if t0.id == eventId then
          putTemplateFields ⟨dT, dD, dSd, dStod, dEt, dVid, some s, some "all"⟩ (some r) t0
        else t0)).find? (fun t0 => t0.id == eventId) = _
    rw [findTemplate_map_update]
    rw [show st.templates.find? (fun t0 => t0.id == eventId) = some t from ht]
    rfl
  have happly : putApply eventId ⟨dT, dD, dSd, dStod, dEt, dVid, some s, some "all"⟩ today
        (some r) st
      = (regenInstances
            ((findTemplate
              { st with
                  templates := st.templates.map (fun t0 =>
                    if t0.id == eventId then
                      putTemplateFields ⟨dT, dD, dSd, dStod, dEt, dVid, some s, some "all"⟩
                        (some r) t0
                    else t0)
                  instances := st.instances.filter (fun i =>
                    ! ((i.recurring_event_id == eventId) &&
                       ! ((exceptionDates st eventId).contains i.instance_date))) }
              eventId).getD default) r).foldl
          (fun acc inst => upsertInstance acc inst)
          { st with
              templates := st.templates.map (fun t0 =>
                if t0.id == eventId then
                  putTemplateFields ⟨dT, dD, dSd, dStod, dEt, dVid, some s, some "all"⟩
                    (some r) t0
                else t0)
              instances := st.instances.filter (fun i =>
                ! ((i.recurring_event_id == eventId) &&
                   ! ((exceptionDates st eventId).contains i.instance_date))) } := rfl
  rw [hfind2] at happly
  simp only [Option.getD_some] at happly
  have hpw : (regenInstances
      (putTemplateFields ⟨dT, dD, dSd, dStod, dEt, dVid, some s, some "all"⟩ (some r) t)
      r).Pairwise (fun a b => a.instance_date ≠ b.instance_date) := by
    simpa [regenInstances] using
      generateInstances_pairwise
        (putTemplateFields ⟨dT, dD, dSd, dStod, dEt, dVid, some s, some "all"⟩ (some r) t) r
        (ruleInstanceCount r) hi
  have hrid : ∀ dd ∈ regenInstances
      (putTemplateFields ⟨dT, dD, dSd, dStod, dEt, dVid, some s, some "all"⟩ (some r) t) r,
      dd.recurring_event_id = eventId := by
    intro dd hdd
    have h1 := generateInstances_rid
      (putTemplateFields ⟨dT, dD, dSd, dStod, dEt, dVid, some s, some "all"⟩ (some r) t) r
      (ruleInstanceCount r) dd (by simpa [regenInstances] using hdd)
    rw [h1]
    exact htid
  have h2 : (regenInstances
      (putTemplateFields ⟨dT, dD, dSd, dStod, dEt, dVid, some s, some "all"⟩ (some r) t)
      r).Pairwise (fun a b =>
        ¬(a.recurring_event_id = b.recurring_event_id ∧ a.instance_date = b.instance_date)) :=
    hpw.imp (fun hne hand => hne hand.2)
  have h3 : ∀ dd ∈ regenInstances
      (putTemplateFields ⟨dT, dD, dSd, dStod, dEt, dVid, some s, some "all"⟩ (some r) t) r,
      ∀ i ∈ ({ st with
          templates := st.templates.map (fun t0 =>
            if t0.id == eventId then
              putTemplateFields ⟨dT, dD, dSd, dStod, dEt, dVid, some s, some "all"⟩ (some r) t0
            else t0)
          instances := st.instances.filter (fun i =>
            ! ((i.recurring_event_id == eventId) &&
               ! ((exceptionDates st eventId).contains i.instance_date))) } : DBState).instances,
      i.recurring_event_id = dd.recurring_event_id → i.instance_date = dd.instance_date →
      i.toInstanceData = dd := by
    intro dd hdd i hif hrid2 hdt2
    have hif2 : i ∈ st.instances.filter (fun j =>
        ! ((j.recurring_event_id == eventId) &&
           ! ((exceptionDates st eventId).contains j.instance_date))) := hif
    have hiSt := (List.mem_filter.mp hif2).1
    have hieid : (i.recurring_event_id == eventId) = true := by
      rw [hrid2.trans (hrid dd hdd)]
      simp
    have hmemData : i.toInstanceData ∈ eidData st eventId :=
      List.mem_map_of_mem _ (List.mem_filter.mpr ⟨hiSt, hieid⟩)
    rw [hcons] at hmemData
    exact data_eq_of_mem_dates_unique _ hpw hmemData hdd hdt2
  rw [foldl_upsert_spec _ _ h2 h3] at happly
  have hkeyE : ∀ dd ∈ regenInstances
      (putTemplateFields ⟨dT, dD, dSd, dStod, dEt, dVid, some s, some "all"⟩ (some r) t) r,
      hasKey { st with
          templates := st.templates.map (fun t0 =>
            if t0.id == eventId then
              putTemplateFields ⟨dT, dD, dSd, dStod, dEt, dVid, some s, some "all"⟩ (some r) t0
            else t0)
          instances := st.instances.filter (fun i =>
            ! ((i.recurring_event_id == eventId) &&
               ! ((exceptionDates st eventId).contains i.instance_date))) } dd
        = (exceptionDates st eventId).contains dd.instance_date := by
    intro dd hdd
    cases hK : hasKey { st with
        templates := st.templates.map (fun t0 =>
          if t0.id == eventId then
            putTemplateFields ⟨dT, dD, dSd, dStod, dEt, dVid, some s, some "all"⟩ (some r) t0
          else t0)
        instances := st.instances.filter (fun i =>
          ! ((i.recurring_event_id == eventId) &&
             ! ((exceptionDates st eventId).contains i.instance_date))) } dd with
    | true =>
      obtain ⟨i, hif, hmatch⟩ := List.any_eq_true.mp hK
      have hand := (Bool.and_eq_true _ _).mp hmatch
      have hird : i.recurring_event_id = dd.recurring_event_id := by simpa using hand.1
      have hidt : i.instance_date = dd.instance_date := by simpa using hand.2
      have hif2 : i ∈ st.instances.filter (fun j =>
          ! ((j.recurring_event_id == eventId) &&
             ! ((exceptionDates st eventId).contains j.instance_date))) := hif
      have hkeep := (List.mem_filter.mp hif2).2
      have hbeq : (i.recurring_event_id == eventId) = true := by
        rw [hird.trans (hrid dd hdd)]
        simp
      simp only [hbeq, Bool.true_and, Bool.not_not] at hkeep
      rw [← hidt, hkeep]
    | false =>
      cases hc : (exceptionDates st eventId).contains dd.instance_date with
      | false => rfl
      | true =>
        exfalso
        have hddmem : dd ∈ eidData st eventId := by rw [hcons]; exact hdd
        obtain ⟨i, hif, hieq⟩ := List.mem_map.mp hddmem
        have hiSt := (List.mem_filter.mp hif).1
        have hieid := (List.mem_filter.mp hif).2
        have hidt : i.instance_date = dd.instance_date :=
          congrArg InstanceData.instance_date hieq
        have hird : i.recurring_event_id = dd.recurring_event_id :=
          congrArg InstanceData.recurring_event_id hieq
        have hkeep : (! ((i.recurring_event_id == eventId) &&
            ! ((exceptionDates st eventId).contains i.instance_date))) = true := by
          rw [hidt, hc]
          simp
        have hin2 : i ∈ ({ st with
            templates := st.templates.map (fun t0 =>
              if t0.id == eventId then
                putTemplateFields ⟨dT, dD, dSd, dStod, dEt, dVid, some s, some "all"⟩ (some r) t0
              else t0)
            instances := st.instances.filter (fun i =>
              ! ((i.recurring_event_id == eventId) &&
                 ! ((exceptionDates st eventId).contains i.instance_date))) } : DBState).instances :=
          List.mem_filter.mpr ⟨hiSt, hkeep⟩
        have hKtrue : hasKey { st with
            templates := st.templates.map (fun t0 =>
              if t0.id == eventId then
                putTemplateFields ⟨dT, dD, dSd, dStod, dEt, dVid, some s, some "all"⟩ (some r) t0
              else t0)
            instances := st.instances.filter (fun i =>
              ! ((i.recurring_event_id == eventId) &&
                 ! ((exceptionDates st eventId).contains i.instance_date))) } dd = true :=
          List.any_eq_true.mpr ⟨i, hin2, by simp [hird, hidt]⟩
        rw [hK] at hKtrue
        exact Bool.false_ne_true hKtrue
  have hMfix : (regenInstances (putTemplateFields
      ⟨dT, dD, dSd, dStod, dEt, dVid, some s, some "all"⟩ (some r) t) r).filter
        (fun d => ! hasKey { st with
            templates := st.templates.map (fun t0 =>
              if t0.id == eventId then
                putTemplateFields ⟨dT, dD, dSd, dStod, dEt, dVid, some s, some "all"⟩ (some r) t0
              else t0)
            instances := st.instances.filter (fun i =>
              ! ((i.recurring_event_id == eventId) &&
                 ! ((exceptionDates st eventId).contains i.instance_date))) } d)
      = (regenInstances (putTemplateFields
          ⟨dT, dD, dSd, dStod, dEt, dVid, some s, some "all"⟩ (some r) t) r).filter
        (fun d => ! (exceptionDates st eventId).contains d.instance_date) :=
    List.filter_congr (fun x hx => by rw [hkeyE x hx])
  rw [hMfix] at happly
  refine ⟨?_, ?_, ?_⟩
  · have hstep : eidData (putApply eventId
        ⟨dT, dD, dSd, dStod, dEt, dVid, some s, some "all"⟩ today (some r) st) eventId
        = (regenInstances (putTemplateFields
              ⟨dT, dD, dSd, dStod, dEt, dVid, some s, some "all"⟩ (some r) t) r).filter
            (fun d => (exceptionDates st eventId).contains d.instance_date)
          ++ (regenInstances (putTemplateFields
              ⟨dT, dD, dSd, dStod, dEt, dVid, some s, some "all"⟩ (some r) t) r).filter
            (fun d => ! (exceptionDates st eventId).contains d.instance_date) := by
      rw [happly]
      exact eid_filter_append_spec st.instances eventId _ (exceptionDates st eventId)
        st.nextInstanceId hcons hrid
    rw [hstep, hcons]
    exact List.filter_append_perm _ _
  · have hstep : otherRows (putApply eventId
        ⟨dT, dD, dSd, dStod, dEt, dVid, some s, some "all"⟩ today (some r) st) eventId
        = st.instances.filter (fun i => ! (i.recurring_event_id == eventId)) := by
      rw [happly]
      exact other_filter_append_spec st.instances eventId _ (exceptionDates st eventId)
        st.nextInstanceId hrid
    rw [hstep]
    rfl
  · exact putApply_exceptions eventId ⟨dT, dD, dSd, dStod, dEt, dVid, some s, some "all"⟩
      today (some r) st


/-- Witness for C5: re-applying `FREQ=WEEKLY;COUNT=4` to the already
consistent `exState` leaves its keyed instance data unchanged up to order. -/
theorem scope_all_regeneration_idempotent_witness :
    (eidData c5ResultState 1).Perm (eidData exState 1) :=
  (scope_all_regeneration_idempotent exState 1 0 c5Data exTemplate
    "FREQ=WEEKLY;COUNT=4" (mkWeeklyRule 4 1) rfl rfl rfl (by decide) rfl (by decide)).2.1

lemma upsert_next_ge (A : DBState) (d : InstanceData) :
    A.nextInstanceId ≤ (upsertInstance A d).nextInstanceId := by
  unfold upsertInstance
  split
  · exact Nat.le_refl _
  · exact Nat.le_succ _

lemma upsert_mem_of_date_ne (A : DBState) (d : InstanceData) (i : InstanceRow)
    (hi : i ∈ A.instances) (hne : i.instance_date ≠ d.instance_date) :
    i ∈ (upsertInstance A d).instances := by
  unfold upsertInstance
  split
  · exact List.mem_map.mpr ⟨i, hi,
      if_neg (fun hc => hne (by simpa using ((Bool.and_eq_true _ _).mp hc).2))⟩
  · exact List.mem_append.mpr (Or.inl hi)

lemma foldSkip_mem_past (today : Nat) (L : List InstanceData) (A : DBState) (i : InstanceRow)
    (hi : i ∈ A.instances) (hlt : i.instance_date < today) :
    i ∈ (L.foldl (fun acc inst =>
        if inst.instance_date < today then acc else upsertInstance acc inst) A).instances := by
  induction L generalizing A with
  | nil => exact hi
  | cons d L ih =>
    rw [List.foldl_cons]
    by_cases hd : d.instance_date < today
    · rw [if_pos hd]; exact ih A hi
    · rw [if_neg hd]
      exact ih _ (upsert_mem_of_date_ne A d i hi (by omega))

lemma upsert_id_origin (A : DBState) (d : InstanceData) (i : InstanceRow)
    (hi : i ∈ (upsertInstance A d).instances) :
    (∃ j ∈ A.instances, i.id = j.id) ∨ A.nextInstanceId ≤ i.id := by
  unfold upsertInstance at hi
  split at hi
  · obtain ⟨j, hj, hji⟩ := List.mem_map.mp hi
    left
    refine ⟨j, hj, ?_⟩
    rw [← hji]
    by_cases hc : ((j.recurring_event_id == d.recurring_event_id &&
        j.instance_date == d.instance_date) = true)
    · rw [if_pos hc]
    · rw [if_neg hc]
  · rcases List.mem_append.mp hi with h | h
    · exact Or.inl ⟨i, h, rfl⟩
    · right
      rw [List.mem_singleton.mp h]

lemma foldSkip_id_origin (today : Nat) (L : List InstanceData) (A : DBState) (i : InstanceRow)
    (hi : i ∈ (L.foldl (fun acc inst =>
        if inst.instance_date < today then acc else upsertInstance acc inst) A).instances) :
    (∃ j ∈ A.instances, i.id = j.id) ∨ A.nextInstanceId ≤ i.id := by
  induction L generalizing A with
  | nil => exact Or.inl ⟨i, hi, rfl⟩
  | cons d L ih =>
    rw [List.foldl_cons] at hi
    by_cases hd : d.instance_date < today
    · rw [if_pos hd] at hi; exact ih A hi
    · rw [if_neg hd] at hi
      rcases ih _ hi with ⟨j, hj, hji⟩ | hge
      · rcases upsert_id_origin A d j hj with ⟨j2, hj2, hjj⟩ | hge2
        · exact Or.inl ⟨j2, hj2, hji.trans hjj⟩
        · right; omega
      · right
        have h1 := upsert_next_ge A d
        omega

lemma hasKey_upsert_mono (A : DBState) (d2 d : InstanceData) (h : hasKey A d = true) :
    hasKey (upsertInstance A d2) d = true := by
  obtain ⟨j, hj, hm⟩ := List.any_eq_true.mp h
  unfold upsertInstance
  split
  · refine List.any_eq_true.mpr ⟨_, List.mem_map_of_mem _ hj, ?_⟩
    by_cases hc : ((j.recurring_event_id == d2.recurring_event_id &&
        j.instance_date == d2.instance_date) = true)
    · rw [if_pos hc]; exact hm
    · rw [if_neg hc]; exact hm
  · exact List.any_eq_true.mpr ⟨j, List.mem_append.mpr (Or.inl hj), hm⟩

lemma hasKey_upsert_self (A : DBState) (d : InstanceData) :
    hasKey (upsertInstance A d) d = true := by
  unfold upsertInstance
  split
  case isTrue h =>
    obtain ⟨j, hj, hm⟩ := List.any_eq_true.mp h
    refine List.any_eq_true.mpr ⟨_, List.mem_map_of_mem _ hj, ?_⟩
    by_cases hc : ((j.recurring_event_id == d.recurring_event_id &&
        j.instance_date == d.instance_date) = true)
    · rw [if_pos hc]; exact hm
    · rw [if_neg hc]; exact hm
  case isFalse h =>
    refine List.any_eq_true.mpr
      ⟨{ toInstanceData := d, id := A.nextInstanceId }, ?_, ?_⟩
    · exact List.mem_append.mpr (Or.inr (List.mem_singleton.mpr rfl))
    · simp

lemma foldSkip_hasKey_mono (today : Nat) (L : List InstanceData) (A : DBState)
    (d : InstanceData) (h : hasKey A d = true) :
    hasKey (L.foldl (fun acc inst =>
        if inst.instance_date < today then acc else upsertInstance acc inst) A) d = true := by
  induction L generalizing A with
  | nil => exact h
  | cons d0 L ih =>
    rw [List.foldl_cons]
    by_cases hd : d0.instance_date < today
    · rw [if_pos hd]; exact ih A h
    · rw [if_neg hd]; exact ih _ (hasKey_upsert_mono A d0 d h)

lemma foldSkip_hasKey_of_mem (today : Nat) (L : List InstanceData) (A : DBState) :
    ∀ d ∈ L, ¬ (d.instance_date < today) →
    hasKey (L.foldl (fun acc inst =>
        if inst.instance_date < today then acc else upsertInstance acc inst) A) d = true := by
  induction L generalizing A with
  | nil => intro d hd; cases hd
  | cons d0 L ih =>
    intro d hd hnlt
    rw [List.foldl_cons]
    cases hd with
    | head =>
      rw [if_neg hnlt]
      exact foldSkip_hasKey_mono today L _ _ (hasKey_upsert_self A _)
    | tail _ hd2 =>
      by_cases h0 : d0.instance_date < today
      · rw [if_pos h0]; exact ih A d hd2 hnlt
      · rw [if_neg h0]; exact ih _ d hd2 hnlt

lemma row_eq_of_mem_ids_unique (l : List InstanceRow)
    (h : l.Pairwise (fun a b => a.id ≠ b.id)) {x y : InstanceRow}
    (hx : x ∈ l) (hy : y ∈ l) (hid : x.id = y.id) : x = y := by
  induction l with
  | nil => cases hx
  | cons a l ih =>
    cases hx with
    | head =>
      cases hy with
      | head => rfl
      | tail _ hy2 => exact absurd hid (List.rel_of_pairwise_cons h hy2)
    | tail _ hx2 =>
      cases hy with
      | head => exact absurd hid.symm (List.rel_of_pairwise_cons h hx2)
      | tail _ hy2 => exact ih h.of_cons hx2 hy2

lemma map_keyfix_filter_not_eid (eventId : Nat) (d : InstanceData)
    (hd : d.recurring_event_id = eventId) (l : List InstanceRow) :
    (l.map (fun i => if i.recurring_event_id == d.recurring_event_id &&
        i.instance_date == d.instance_date then
        { i with
            start_time := d.start_time
            end_time := d.end_time
            title := d.title
            description := d.description
            location := d.location }
      else i)).filter (fun i => ! (i.recurring_event_id == eventId))
    = l.filter (fun i => ! (i.recurring_event_id == eventId)) := by
  induction l with
  | nil => rfl
  | cons a l ih =>
    rw [List.map_cons]
    by_cases hc : ((a.recurring_event_id == d.recurring_event_id &&
        a.instance_date == d.instance_date) = true)
    · rw [if_pos hc]
      have hrid : a.recurring_event_id = eventId := by
        have h1 := (Bool.and_eq_true _ _).mp hc
        have h2 : a.recurring_event_id = d.recurring_event_id := by simpa using h1.1
        rw [h2, hd]
      have hfa : (! (a.recurring_event_id == eventId)) = false := by simp [hrid]
      rw [List.filter_cons, List.filter_cons, hfa]
      simp only [Bool.false_eq_true, if_false]
      exact ih
    · rw [if_neg hc, List.filter_cons, List.filter_cons]
      cases hfa : (! (a.recurring_event_id == eventId)) with
      | true =>
        rw [if_pos rfl, if_pos rfl, ih]
      | false =>
        rw [if_neg Bool.false_ne_true, if_neg Bool.false_ne_true, ih]

lemma upsert_other_rows (eventId : Nat) (A : DBState) (d : InstanceData)
    (hd : d.recurring_event_id = eventId) :
    (upsertInstance A d).instances.filter (fun i => ! (i.recurring_event_id == eventId))
      = A.instances.filter (fun i => ! (i.recurring_event_id == eventId)) := by
  unfold upsertInstance
  split
  · exact map_keyfix_filter_not_eid eventId d hd A.instances
  · show (A.instances ++ [({ toInstanceData := d, id := A.nextInstanceId } : InstanceRow)]).filter
        (fun i => ! (i.recurring_event_id == eventId))
      = A.instances.filter (fun i => ! (i.recurring_event_id == eventId))
    rw [List.filter_append]
    have hnil : ([({ toInstanceData := d, id := A.nextInstanceId } : InstanceRow)].filter
        (fun i => ! (i.recurring_event_id == eventId))) = [] := by simp [hd]
    rw [hnil, List.append_nil]

lemma foldSkip_other_rows (eventId today : Nat) (L : List InstanceData) (A : DBState)
    (hL : ∀ d ∈ L, d.recurring_event_id = eventId) :
    ((L.foldl (fun acc inst =>
        if inst.instance_date < today then acc else upsertInstance acc inst) A).instances).filter
      (fun i => ! (i.recurring_event_id == eventId))
    = A.instances.filter (fun i => ! (i.recurring_event_id == eventId)) := by
  induction L generalizing A with
  | nil => rfl
  | cons d L ih =>
    rw [List.foldl_cons]
    by_cases hd : d.instance_date < today
    · rw [if_pos hd]
      exact ih A (fun d2 hd2 => hL d2 (List.mem_cons_of_mem d hd2))
    · rw [if_neg hd]
      rw [ih _ (fun d2 hd2 => hL d2 (List.mem_cons_of_mem d hd2))]
      exact upsert_other_rows eventId A d (hL d (List.mem_cons_self d L))

/-- C1 (amended): for a PUT with scope `thisAndFuture` the handler does not
split the series into two templates.  It accepts the request and applies
`putApply`; the template table keeps its length (no second template row is
created); every other template row survives unchanged; the target template
row is overwritten in place with the request's title, start date and venue;
instances dated before the current date are untouched; the instance rows of
every other template are preserved row for row; the target's non-exception
instances dated on or after the current date are deleted (under the
AUTOINCREMENT well-formedness hypotheses their rows do not survive into the
result); every regenerated occurrence dated on or after the current date is
present afterwards under the upsert key; and the exception table is
unchanged, so no instance or exception is reassigned to another template.
The pivot the code uses is the current date, not a request-supplied date. -/
theorem thisAndFuture_updates_template_in_place
    (st : DBState) (eventId today : Nat) (data : PutData) (t : Template)
    (s : String) (r : RRule)
    (ht : findTemplate st eventId = some t)
    (hs : data.recurrenceRule = some s)
    (hp : parseRRule s = some r)
    (hscope : data.updateScope = some "thisAndFuture")
    (hids : st.instances.Pairwise (fun a b => a.id ≠ b.id))
    (hwf : ∀ i ∈ st.instances, i.id < st.nextInstanceId) :
    putHandler eventId data today st = Except.ok (putApply eventId data today (some r) st)
    ∧ (putApply eventId data today (some r) st).templates.length = st.templates.length
    ∧ (∀ tp ∈ st.templates, tp.id ≠ eventId →
        tp ∈ (putApply eventId data today (some r) st).templates)
    ∧ (∀ tp ∈ (putApply eventId data today (some r) st).templates, tp.id = eventId →
        tp.title = data.title ∧ tp.start_date = data.startDate ∧ tp.location = data.venueId)
    ∧ (∀ i ∈ st.instances, i.instance_date < today →
        i ∈ (putApply eventId data today (some r) st).instances)
    ∧ otherRows (putApply eventId data today (some r) st) eventId = otherRows st eventId
    ∧ (∀ i ∈ st.instances, i.recurring_event_id = eventId → today ≤ i.instance_date →
        (exceptionDates st eventId).contains i.instance_date = false →
        i ∉ (putApply eventId data today (some r) st).instances)
    ∧ (∀ d ∈ regenInstances (putTemplateFields data (some r) t) r, today ≤ d.instance_date →
        hasKey (putApply eventId data today (some r) st) d = true)
    ∧ (putApply eventId data today (some r) st).exceptions = st.exceptions := by
  have htid : t.id = eventId := by
    have h1 := List.find?_some
      (show st.templates.find? (fun x => x.id == eventId) = some t from ht)
    simpa using h1
  have hhandler : putHandler eventId data today st
      = Except.ok (putApply eventId data today (some r) st) := by
    simp only [putHandler, ht, hs, hp]
  have htpl1 : (putApply eventId data today (some r) st).templates.length
      = st.templates.length := by
    rw [putApply_templates, List.length_map]
  have htpl2 : ∀ tp ∈ st.templates, tp.id ≠ eventId →
      tp ∈ (putApply eventId data today (some r) st).templates := by
    intro tp hmem hne
    rw [putApply_templates]
    refine List.mem_map.mpr ⟨tp, hmem, ?_⟩
    rw [if_neg (fun hc => hne (by simpa using hc))]
  have htpl3 : ∀ tp ∈ (putApply eventId data today (some r) st).templates, tp.id = eventId →
      tp.title = data.title ∧ tp.start_date = data.startDate ∧ tp.location = data.venueId := by
    intro tp hmem hid
    rw [putApply_templates] at hmem
    obtain ⟨t0, ht0, heq⟩ := List.mem_map.mp hmem
    have heq2 : (if (t0.id == eventId) = true then putTemplateFields data (some r) t0 else t0)
        = tp := heq
    by_cases hc : (t0.id == eventId) = true
    · rw [if_pos hc] at heq2
      rw [← heq2]
      exact ⟨rfl, rfl, rfl⟩
    · rw [if_neg hc] at heq2
      subst heq2
      exact absurd (by simp [hid]) hc
  have hexc9 : (putApply eventId data today (some r) st).exceptions = st.exceptions :=
    putApply_exceptions eventId data today (some r) st
  obtain ⟨dT, dD, dSd, dStod, dEt, dVid, dRR, dUS⟩ := data
  replace hs : dRR = some s := hs
  replace hscope : dUS = some "thisAndFuture" := hscope
  subst hs
  subst hscope
  have hfind2 : findTemplate
      { st with
          templates := st.templates.map (fun t0 =>
            if t0.id == eventId then
              putTemplateFields ⟨dT, dD, dSd, dStod, dEt, dVid, some s, some "thisAndFuture"⟩
                (some r) t0
            else t0)
          instances := st.instances.filter (fun i =>
            ! ((i.recurring_event_id == eventId) && decide (today ≤ i.instance_date) &&
               ! ((exceptionDates st eventId).contains i.instance_date))) } eventId
      = some (putTemplateFields ⟨dT, dD, dSd, dStod, dEt, dVid, some s, some "thisAndFuture"⟩
          (some r) t) := by
    show (st.templates.map (fun t0 =>
        if t0.id == eventId then
          putTemplateFields ⟨dT, dD, dSd, dStod, dEt, dVid, some s, some "thisAndFuture"⟩
            (some r) t0
        else t0)).find? (fun t0 => t0.id == eventId) = _
    rw [findTemplate_map_update]
    rw [show st.templates.find? (fun t0 => t0.id == eventId) = some t from ht]
    rfl
  have happly : putApply eventId ⟨dT, dD, dSd, dStod, dEt, dVid, some s, some "thisAndFuture"⟩
        today (some r) st
      = (regenInstances
            ((findTemplate
              { st with
                  templates := st.templates.map (fun t0 =>
                    if t0.id == eventId then
                      putTemplateFields
                        ⟨dT, dD, dSd, dStod, dEt, dVid, some s, some "thisAndFuture"⟩
                        (some r) t0
                    else t0)
                  instances := st.instances.filter (fun i =>
                    ! ((i.recurring_event_id == eventId) && decide (today ≤ i.instance_date) &&
                       ! ((exceptionDates st eventId).contains i.instance_date))) }
              eventId).getD default) r).foldl
          (fun acc inst =>
            if ("thisAndFuture" : String) = "thisAndFuture" ∧ inst.instance_date < today then acc
            else upsertInstance acc inst)
          { st with
              templates := st.templates.map (fun t0 =>
                if t0.id == eventId then
                  putTemplateFields ⟨dT, dD, dSd, dStod, dEt, dVid, some s, some "thisAndFuture"⟩
                    (some r) t0
                else t0)
              instances := st.instances.filter (fun i =>
                ! ((i.recurring_event_id == eventId) && decide (today ≤ i.instance_date) &&
                   ! ((exceptionDates st eventId).contains i.instance_date))) } := rfl
  rw [hfind2] at happly
  rw [Option.getD_some] at happly
  have hfun : (fun (acc : DBState) (inst : InstanceData) =>
        if ("thisAndFuture" : String) = "thisAndFuture" ∧ inst.instance_date < today then acc
        else upsertInstance acc inst)
      = (fun (acc : DBState) (inst : InstanceData) =>
        if inst.instance_date < today then acc else upsertInstance acc inst) := by
    funext acc inst
    by_cases h : inst.instance_date < today
    · rw [if_pos ⟨rfl, h⟩, if_pos h]
    · rw [if_neg (fun hc => h hc.2), if_neg h]
  rw [hfun] at happly
  have hL : ∀ d ∈ regenInstances
      (putTemplateFields ⟨dT, dD, dSd, dStod, dEt, dVid, some s, some "thisAndFuture"⟩
        (some r) t) r,
      d.recurring_event_id = eventId := by
    intro d hd
    have h1 := generateInstances_rid
      (putTemplateFields ⟨dT, dD, dSd, dStod, dEt, dVid, some s, some "thisAndFuture"⟩
        (some r) t)
      r (ruleInstanceCount r) d (by simpa [regenInstances] using hd)
    rw [h1]
    exact htid
  refine ⟨hhandler, htpl1, htpl2, htpl3, ?_, ?_, ?_, ?_, hexc9⟩
  · intro i hi hlt
    rw [happly]
    refine foldSkip_mem_past today _ _ i ?_ hlt
    show i ∈ st.instances.filter (fun j =>
        ! ((j.recurring_event_id == eventId) && decide (today ≤ j.instance_date) &&
           ! ((exceptionDates st eventId).contains j.instance_date)))
    refine List.mem_filter.mpr ⟨hi, ?_⟩
    have hdec : decide (today ≤ i.instance_date) = false := decide_eq_false (by omega)
    simp [hdec]
  · show (putApply eventId ⟨dT, dD, dSd, dStod, dEt, dVid, some s, some "thisAndFuture"⟩
          today (some r) st).instances.filter (fun i => ! (i.recurring_event_id == eventId))
      = st.instances.filter (fun i => ! (i.recurring_event_id == eventId))
    rw [happly]
    rw [foldSkip_other_rows eventId today _ _ hL]
    show (st.instances.filter (fun i =>
        ! ((i.recurring_event_id == eventId) && decide (today ≤ i.instance_date) &&
           ! ((exceptionDates st eventId).contains i.instance_date)))).filter
        (fun i => ! (i.recurring_event_id == eventId))
      = st.instances.filter (fun i => ! (i.recurring_event_id == eventId))
    rw [List.filter_filter]
    apply List.filter_congr
    intro a _
    cases h1 : (a.recurring_event_id == eventId) <;> simp [h1]
  · intro i hi hrid htoday hexc hmem
    rw [happly] at hmem
    rcases foldSkip_id_origin today _ _ i hmem with ⟨j, hj, hji⟩ | hge
    · have hj2 : j ∈ st.instances.filter (fun k =>
          ! ((k.recurring_event_id == eventId) && decide (today ≤ k.instance_date) &&
             ! ((exceptionDates st eventId).contains k.instance_date))) := hj
      have hjSt := (List.mem_filter.mp hj2).1
      have hkeep := (List.mem_filter.mp hj2).2
      have hij : i = j := row_eq_of_mem_ids_unique st.instances hids hi hjSt hji
      rw [← hij] at hkeep
      have hbeq : (i.recurring_event_id == eventId) = true := by simp [hrid]
      have htdec : decide (today ≤ i.instance_date) = true := decide_eq_true htoday
      simp only [hbeq, htdec, hexc, Bool.true_and, Bool.and_true, Bool.not_false,
        Bool.not_true, Bool.false_eq_true] at hkeep
    · have hge2 : st.nextInstanceId ≤ i.id := hge
      have h3 := hwf i hi
      omega
  · intro d hd htoday
    rw [happly]
    exact foldSkip_hasKey_of_mem today _ _ d hd (by omega)

/-- The amended `thisAndFuture` theorem instantiated on the concrete
COUNT=4 series of `exState` updated at current date 14: the template count
is preserved. -/
theorem thisAndFuture_updates_template_in_place_witness :
    c1ResultState.templates.length = exState.templates.length :=
  (thisAndFuture_updates_template_in_place exState 1 14 c1Data exTemplate
    "FREQ=WEEKLY;COUNT=4" (mkWeeklyRule 4 1) rfl rfl rfl rfl (by decide) (by decide)).2.1
